import Mathlib

/-!
Shallow embedding of the point-operator LUT library
(src/assignment/point_operators.py) and of the inline histogram-equalization
LUT construction (src/equalize_image.py, read_image, lines 29-42).

Modelling conventions:
* numpy uint8 arrays are lists of natural numbers; the cast
  np.array(xs, dtype=np.uint8) truncates each float toward zero and wraps
  modulo 256. Wherever the code clamps to [0, 255] before the cast the wrap
  is provably a no-op and is omitted; where the code does not clamp
  (adjust_exposure, log_transform) the mod 256 wrap is kept explicitly.
* Python/numpy float arithmetic is modelled by exact rational arithmetic ℚ.
  Integer sums (Python int accumulation, np.sum over integer arrays) are
  modelled by ℕ, which is exact. The claims proved below either quantify
  over the exact idealisation (monotonicity, identities) or evaluate at
  inputs where the floating-point computation is exact or far from a
  rounding boundary, as noted at each definition.
* an image is a shape tuple together with its row-major flattened samples;
  dtypes are reduced to the one distinction the code makes, uint8 or not.
* a Python exception is an explicit error value; the constructors of
  PyError carry the raising site and message in their doc comments.
-/

set_option maxRecDepth 100000

/-- The Python exceptions the modelled code can raise. -/
inductive PyError where
  /-- ValueError, message: Invalid LUT Length. (apply_lut) -/
  | invalidLutLength
  /-- TypeError, message: Can only support 8-bit images. (apply_lut) -/
  | unsupportedBitDepth
  /-- ValueError raised by the guard of adjust_contrast, message:
  Histogram must be 256-elements long and scale cannot be negative. -/
  | histOrScaleInvalid
  /-- ValueError raised by the int() conversion in adjust_contrast when the
  histogram total is zero: np.sum/0 is NaN and int(NaN) raises, message:
  cannot convert float NaN to integer. -/
  | nanToInt
  /-- ValueError raised by the guard of adjust_exposure, message:
  Gamma must be a positive value. -/
  | negativeGamma
  /-- IndexError raised by hist[intensity] in the pixel-count loop of
  read_image when the histogram has fewer than 256 entries. -/
  | indexOutOfBounds
  /-- ValueError raised by the tuple unpacking of np.shape(img) in
  apply_lut when the image is neither 2- nor 3-dimensional. -/
  | shapeUnpack
deriving DecidableEq

instance {α : Type} [DecidableEq α] : DecidableEq (Except PyError α) := fun x y =>
  match x, y with
  | Except.error e, Except.error f =>
    if h : e = f then Decidable.isTrue (by rw [h]) else
      Decidable.isFalse (fun c => by cases c; exact h rfl)
  | Except.error _, Except.ok _ => Decidable.isFalse (fun c => by cases c)
  | Except.ok _, Except.error _ => Decidable.isFalse (fun c => by cases c)
  | Except.ok a, Except.ok b =>
    if h : a = b then Decidable.isTrue (by rw [h]) else
      Decidable.isFalse (fun c => by cases c; exact h rfl)

/-- The one dtype distinction the code tests: numpy uint8 or anything else. -/
inductive Dtype where
  | uint8
  | other
deriving DecidableEq

/-- A numpy array as the code uses it: its shape tuple and its row-major
flattened samples. For a well-formed array data.length = shape.prod. -/
structure Image where
  shape : List ℕ
  data : List ℕ
deriving DecidableEq

/-- The heap state of the apply_lut body: the array object passed by the
caller (img) and the buffer img_modified. The line
img_modified = np.array(img.flatten()) allocates a fresh array holding a
copy of the flattened samples: ndarray.flatten always copies, and np.array
copies again, so the two state components are distinct objects. -/
structure PyState where
  img : List ℕ
  img_modified : List ℕ
deriving DecidableEq

/-- One iteration of the loop body
img_modified[intensity] = lut[img_modified[intensity]] at index i: it
mutates only the img_modified buffer, the img object is untouched. -/
def lut_step (lut : List ℕ) (s : PyState) (i : ℕ) : PyState :=
  { s with img_modified := s.img_modified.set i (lut.getD (s.img_modified.getD i 0) 0) }

/-- for intensity in range(n): run lut_step at indices 0, 1, ..., n-1. -/
def lut_loop (lut : List ℕ) (s : PyState) : ℕ → PyState
  | 0 => s
  | n + 1 => lut_step lut (lut_loop lut s n) n

/-- The state after the whole apply_lut loop, started from the caller array
imgData and the freshly copied buffer, with n = img.size iterations. -/
def apply_lut_run (imgData lut : List ℕ) : PyState :=
  lut_loop lut { img := imgData, img_modified := imgData } imgData.length

/-- apply_lut from src/assignment/point_operators.py. The guard order is
that of the source: the LUT length test raises first, then the dtype test;
np.reshape back to the original shape preserves the shape tuple, and the
tuple unpacking of np.shape fails for a rank other than 2 or 3. -/
def apply_lut (img : Image) (imgDtype : Dtype) (lut : List ℕ) (lutDtype : Dtype) :
    Except PyError Image :=
  if lut.length ≠ 256 then Except.error PyError.invalidLutLength
  else if lutDtype = Dtype.uint8 ∧ imgDtype = Dtype.uint8 then
    if img.shape.length = 2 ∨ img.shape.length = 3 then
      Except.ok { shape := img.shape, data := (apply_lut_run img.data lut).img_modified }
    else Except.error PyError.shapeUnpack
  else Except.error PyError.unsupportedBitDepth

/-- The mean brightness of adjust_contrast:
int(np.sum([(i * hist[i]) for i in range(256)]) / np.sum(hist)).
The numerator and denominator are exact integer sums; the quotient is a
float and int() truncates it toward zero, which for the non-negative
quotient is the floor. A zero denominator is NaN and is handled by the
caller below. -/
def contrast_brightness (hist : List ℕ) : ℤ :=
  Int.floor ((((List.range 256).map (fun i => i * hist.getD i 0)).sum : ℚ) / (hist.sum : ℚ))

/-- adjust_contrast from src/assignment/point_operators.py. After the guard,
lut_contrast = scale * np.arange(256) + (1 - scale) * brightness, entries
above 255 are replaced by 255, entries below 0 by 0, and the uint8 cast
truncates; the clamp makes the wrap of the cast a no-op. When np.sum(hist)
is zero the quotient is NaN and int(NaN) raises ValueError, modelled as the
explicit nanToInt branch. -/
def adjust_contrast (scale : ℚ) (hist : List ℕ) : Except PyError (List ℕ) :=
  if hist.length ≠ 256 ∨ scale < 0 then Except.error PyError.histOrScaleInvalid
  else if hist.sum = 0 then Except.error PyError.nanToInt
  else
    Except.ok ((List.range 256).map (fun (i : ℕ) =>
      (Int.floor (max 0 (min 255 (scale * (i : ℚ) +
        (1 - scale) * (contrast_brightness hist : ℚ))))).toNat))

/-- The numpy elementwise float power x ** g, on the exponents this
development uses. IEEE 754 pow returns exactly 1 whenever the exponent is
zero, for every base including zero, and zero to a positive exponent is
exactly zero; both cases are exact in floating point and carried over.
A non-integer positive exponent of a general base is irrational, outside
the rational model, and unused by every claim below; it is mapped to 0. -/
def npPow (x g : ℚ) : ℚ :=
  if g = 0 then 1
  else if x = 0 then 0
  else if 0 ≤ g ∧ g.den = 1 then x ^ g.num.toNat
  else 0

/-- adjust_exposure from src/assignment/point_operators.py. The guard
rejects a negative gamma only; the table is
((np.arange(256) / 255.0) ** gamma) * 255 cast to uint8 with no clamp, so
the cast truncation and mod-256 wrap are both modelled. -/
def adjust_exposure (gamma : ℚ) : Except PyError (List ℕ) :=
  if gamma < 0 then Except.error PyError.negativeGamma
  else Except.ok ((List.range 256).map (fun (i : ℕ) =>
    (Int.floor (npPow ((i : ℚ) / 255) gamma * 255)).toNat % 256))

/-- log_transform from src/assignment/point_operators.py. The float value
106 * np.log10(i + 1) is truncated by the uint8 cast; in exact arithmetic
trunc(106 * log10(m)) = trunc(log10(m ^ 106)) is the number of base-10
digits of m ^ 106 minus one, that is Nat.log 10 (m ^ 106), for m ≥ 1.
No entry of the real-valued table is within 0.27 of an integer from below
at the saturating index, so double rounding cannot move the truncation;
the cast wraps mod 256 since the code has no clamp. -/
def log_transform : List ℕ :=
  (List.range 256).map (fun i => Nat.log 10 ((i + 1) ^ 106) % 256)

/-- The running cumulative sum np.cumsum: entry i is the sum of the first
i + 1 entries of the input. -/
def cumsum (xs : List ℚ) : List ℚ :=
  (List.range xs.length).map (fun i => (xs.take (i + 1)).sum)

/-- The pixel count loop of read_image (src/equalize_image.py):
pixels = 0; for intensity in range(256): pixels = pixels + hist[intensity].
Exact integer accumulation over the first 256 entries. -/
def equalize_pixels (hist : List ℕ) : ℕ :=
  ((List.range 256).map (fun i => hist.getD i 0)).sum

/-- The equalization table construction of read_image
(src/equalize_image.py, lines 34-40): pmf = hist / pixels,
cdf = np.cumsum(pmf), lut = cdf * 255 with entries above 255 replaced by
255, below 0 replaced by 0, then cast to uint8 (truncation; the clamp
makes the wrap a no-op). When pixels = 0 numpy emits NaN values without
raising; the rational model renders that division as 0, which keeps the
control flow faithful: no exception is raised on that path. -/
def equalize_table (hist : List ℕ) : List ℕ :=
  let pmf : List ℚ := hist.map (fun (h : ℕ) => (h : ℚ) / (equalize_pixels hist : ℚ))
  let cdf : List ℚ := cumsum pmf
  cdf.map (fun c => (Int.floor (max 0 (min 255 (c * 255)))).toNat)

/-- The equalization LUT construction as executed by read_image: the pixel
count loop indexes hist[0] .. hist[255], so a histogram shorter than 256
entries raises IndexError there; otherwise the table is produced with no
validation of any kind. -/
def equalize_lut (hist : List ℕ) : Except PyError (List ℕ) :=
  if hist.length < 256 then Except.error PyError.indexOutOfBounds
  else Except.ok (equalize_table hist)

/-! ## Helper lemmas about the apply_lut loop -/

/-- The loop only writes into the img_modified buffer: the caller array is
untouched by any number of iterations. -/
theorem lut_loop_img (lut : List ℕ) (s : PyState) (n : ℕ) :
    (lut_loop lut s n).img = s.img := by
  induction n with
  | zero => rfl
  | succ n ih => simp [lut_loop, lut_step, ih]

/-- After n iterations the buffer holds the table image of the first n
samples followed by the untouched remainder: each iteration reads the cell
it writes before writing it, and writes each cell exactly once. -/
theorem lut_loop_modified (lut x buf : List ℕ) (n : ℕ) (h : n ≤ buf.length) :
    (lut_loop lut { img := x, img_modified := buf } n).img_modified =
      (buf.take n).map (fun v => lut.getD v 0) ++ buf.drop n := by
  induction n with
  | zero => simp [lut_loop]
  | succ n ih =>
    have hn : n < buf.length := h
    have ihn := ih (Nat.le_of_lt hn)
    have hA : ((buf.take n).map (fun v => lut.getD v 0)).length = n := by
      simp [Nat.min_eq_left (Nat.le_of_lt hn)]
    have hdrop : buf.drop n = buf[n] :: buf.drop (n + 1) := List.drop_eq_getElem_cons hn
    rw [lut_loop, lut_step, ihn]
    have hget : (((buf.take n).map (fun v => lut.getD v 0)) ++ buf.drop n).getD n 0 =
        buf[n] := by
      rw [List.getD_append_right _ _ _ _ (le_of_eq hA), hA, Nat.sub_self, hdrop]
      rfl
    have hlen : n < (((buf.take n).map (fun v => lut.getD v 0)) ++ buf.drop n).length := by
      simp only [List.length_append, hA, List.length_drop]
      omega
    rw [hget, List.set_eq_take_cons_drop _ hlen]
    have htake : (((buf.take n).map (fun v => lut.getD v 0)) ++ buf.drop n).take n =
        (buf.take n).map (fun v => lut.getD v 0) :=
      List.take_left' hA
    have hdrop2 : (((buf.take n).map (fun v => lut.getD v 0)) ++ buf.drop n).drop (n + 1) =
        buf.drop (n + 1) := by
      have h1 : (((buf.take n).map (fun v => lut.getD v 0)) ++ buf.drop n).drop
          (((buf.take n).map (fun v => lut.getD v 0)).length + 1) = (buf.drop n).drop 1 :=
        List.drop_append 1
      rw [hA] at h1
      rw [h1, List.drop_drop]
    rw [htake, hdrop2]
    have htk : buf.take (n + 1) = buf.take n ++ [buf[n]] := by
      rw [List.take_succ, List.getElem?_eq_getElem hn]
      rfl
    rw [htk, List.map_append, List.append_assoc]
    rfl

/-- The loop applied to the whole buffer is the pointwise table map. -/
theorem apply_lut_run_eq_map (imgData lut : List ℕ) :
    (apply_lut_run imgData lut).img_modified = imgData.map (fun v => lut.getD v 0) := by
  rw [apply_lut_run, lut_loop_modified lut imgData imgData imgData.length le_rfl]
  simp

/-- getD through a map, inside the length of the list. -/
theorem getD_map_lt (l : List ℕ) (f : ℕ → ℕ) (i : ℕ) (h : i < l.length) :
    (l.map f).getD i 0 = f (l.getD i 0) := by
  rw [List.getD_eq_getElem _ _ (by simpa using h), List.getD_eq_getElem _ _ h,
    List.getElem_map]

/-! ## C1, C4, C7, C8: the LUT applicator -/

/-- C1: for every lookup table of exactly 256 uint8 entries and every uint8
image (H x W or H x W x C), apply_lut(img, lut) returns a new image of
identical shape and channel count in which every sample at position p
equals lut[img[p]]. -/
theorem apply_lut_applies_table (img : Image) (lut : List ℕ)
    (hlen : lut.length = 256)
    (hdim : img.shape.length = 2 ∨ img.shape.length = 3)
    (h8 : ∀ v ∈ img.data, v < 256) :
    ∃ out : Image, apply_lut img Dtype.uint8 lut Dtype.uint8 = Except.ok out ∧
      out.shape = img.shape ∧ out.data.length = img.data.length ∧
      ∀ i, i < img.data.length → out.data.getD i 0 = lut.getD (img.data.getD i 0) 0 := by
  refine ⟨{ shape := img.shape, data := (apply_lut_run img.data lut).img_modified }, ?_, rfl, ?_, ?_⟩
  · simp [apply_lut, hlen, hdim]
  · rw [apply_lut_run_eq_map]
    simp
  · intro i hi
    rw [apply_lut_run_eq_map]
    exact getD_map_lt img.data _ i hi

/-- C1 witness: a concrete 2 x 2 uint8 image and the constant table 9. -/
theorem apply_lut_applies_table_witness :
    ∃ out : Image,
      apply_lut { shape := [2, 2], data := [0, 1, 255, 3] } Dtype.uint8
        (List.replicate 256 9) Dtype.uint8 = Except.ok out ∧
      out.shape = ([2, 2] : List ℕ) ∧ out.data.length = [0, 1, 255, 3].length ∧
      ∀ i, i < [0, 1, 255, 3].length →
        out.data.getD i 0 = (List.replicate 256 9).getD ([0, 1, 255, 3].getD i 0) 0 :=
  apply_lut_applies_table { shape := [2, 2], data := [0, 1, 255, 3] }
    (List.replicate 256 9) (by simp) (Or.inl rfl) (by decide)

/-- C4: for every image and every lookup table whose length is not 256,
apply_lut fails with the ValueError of the length guard, regardless of the
image content or of either dtype. -/
theorem apply_lut_rejects_bad_length (img : Image) (imgDtype lutDtype : Dtype)
    (lut : List ℕ) (h : lut.length ≠ 256) :
    apply_lut img imgDtype lut lutDtype = Except.error PyError.invalidLutLength := by
  simp [apply_lut, h]

/-- C4 witness: an empty table against a non-uint8 image. -/
theorem apply_lut_rejects_bad_length_witness :
    apply_lut { shape := [1, 1], data := [5] } Dtype.other ([] : List ℕ) Dtype.uint8 =
      Except.error PyError.invalidLutLength :=
  apply_lut_rejects_bad_length _ _ _ _ (by decide)

/-- C7: apply_lut never mutates its input image: the caller array component
of the final state is the initial data, and the output image is built from
the separately allocated buffer, for every uint8 image and valid 256-entry
table. -/
theorem apply_lut_no_input_mutation (img : Image) (lut : List ℕ)
    (hlen : lut.length = 256)
    (hdim : img.shape.length = 2 ∨ img.shape.length = 3) :
    (apply_lut_run img.data lut).img = img.data ∧
    ∃ out : Image, apply_lut img Dtype.uint8 lut Dtype.uint8 = Except.ok out ∧
      out.data = (apply_lut_run img.data lut).img_modified := by
  refine ⟨lut_loop_img lut _ _,
    ⟨{ shape := img.shape, data := (apply_lut_run img.data lut).img_modified }, ?_, rfl⟩⟩
  simp [apply_lut, hlen, hdim]

/-- C7 witness: a concrete 1 x 3 image with the identity table. -/
theorem apply_lut_no_input_mutation_witness :
    (apply_lut_run [7, 0, 200] (List.range 256)).img = [7, 0, 200] ∧
    ∃ out : Image,
      apply_lut { shape := [1, 3], data := [7, 0, 200] } Dtype.uint8
        (List.range 256) Dtype.uint8 = Except.ok out ∧
      out.data = (apply_lut_run [7, 0, 200] (List.range 256)).img_modified :=
  apply_lut_no_input_mutation { shape := [1, 3], data := [7, 0, 200] }
    (List.range 256) (by simp) (Or.inl rfl)

/-- C8: the LUT length guard runs before the bit-depth guard: with a table
of the wrong length and a non-8-bit image or table, the raised error is the
length ValueError and not the dtype TypeError. -/
theorem apply_lut_length_check_precedes_dtype (img : Image) (imgDtype lutDtype : Dtype)
    (lut : List ℕ) (h : lut.length ≠ 256)
    (hdt : imgDtype ≠ Dtype.uint8 ∨ lutDtype ≠ Dtype.uint8) :
    apply_lut img imgDtype lut lutDtype = Except.error PyError.invalidLutLength ∧
    apply_lut img imgDtype lut lutDtype ≠ Except.error PyError.unsupportedBitDepth := by
  constructor
  · simp [apply_lut, h]
  · simp [apply_lut, h]

/-- C8 witness: a 5-entry table and a float image. -/
theorem apply_lut_length_check_precedes_dtype_witness :
    apply_lut { shape := [1, 1], data := [9] } Dtype.other [1, 2, 3, 4, 5] Dtype.other =
      Except.error PyError.invalidLutLength ∧
    apply_lut { shape := [1, 1], data := [9] } Dtype.other [1, 2, 3, 4, 5] Dtype.other ≠
      Except.error PyError.unsupportedBitDepth :=
  apply_lut_length_check_precedes_dtype _ _ _ _ (by decide) (Or.inl (by decide))

/-! ## C5, C6: contrast adjustment -/

/-- The clamp-then-truncate step of the LUT builders on an integer-valued
float: replacing values above 255 by 255 and below 0 by 0 and then casting
to uint8 is, on integers, the clamp into [0, 255]. -/
theorem floor_clamp_intCast (z : ℤ) :
    (Int.floor (max 0 (min 255 ((z : ℚ))))).toNat = min 255 z.toNat := by
  rw [show ((255:ℚ)) = ((255:ℤ):ℚ) from by norm_num,
    show ((0:ℚ)) = ((0:ℤ):ℚ) from by norm_num,
    ← Int.cast_min, ← Int.cast_max, Int.floor_intCast]
  omega

/-- C5: for every 256-entry histogram with positive total,
adjust_contrast(1.0, hist) is the identity lookup table: entry i equals i
for every intensity i in 0..255, and List.range 256 is exactly that table. -/
theorem adjust_contrast_one_identity (hist : List ℕ)
    (hlen : hist.length = 256) (hpos : 0 < hist.sum) :
    adjust_contrast 1 hist = Except.ok (List.range 256) := by
  have h1 : ¬(hist.length ≠ 256 ∨ (1:ℚ) < 0) := by simp [hlen]
  have hs : hist.sum ≠ 0 := Nat.pos_iff_ne_zero.mp hpos
  rw [adjust_contrast, if_neg h1, if_neg hs]
  congr 1
  have hpt : ∀ i ∈ List.range 256,
      (Int.floor (max 0 (min 255 ((1:ℚ) * i + (1 - 1) * contrast_brightness hist)))).toNat
        = id i := by
    intro i hi
    have hi' : i < 256 := List.mem_range.mp hi
    have hc : (1:ℚ) * i + (1 - 1) * contrast_brightness hist = (((i:ℤ)):ℚ) := by
      push_cast
      ring
    rw [hc, floor_clamp_intCast]
    simp [id]
    omega
  rw [List.map_congr_left hpt, List.map_id]

/-- C5 witness: the uniform histogram of all ones. -/
theorem adjust_contrast_one_identity_witness :
    (List.replicate 256 (1:ℕ)).length = 256 ∧ 0 < (List.replicate 256 (1:ℕ)).sum ∧
    adjust_contrast 1 (List.replicate 256 1) = Except.ok (List.range 256) :=
  ⟨by decide, by decide, adjust_contrast_one_identity _ (by decide) (by decide)⟩

/-- C6: on the uniform histogram of all ones, the mean brightness of
adjust_contrast is 127 (integer truncation of 127.5) and
adjust_contrast(2.0, hist) has entry clamp(2 * i - 127, 0, 255) at every
intensity i. -/
theorem adjust_contrast_two_uniform :
    contrast_brightness (List.replicate 256 1) = 127 ∧
    adjust_contrast 2 (List.replicate 256 1) =
      Except.ok ((List.range 256).map (fun (i : ℕ) => min 255 (2 * (i:ℤ) - 127).toNat)) := by
  have hnum : ((List.range 256).map
      (fun i => i * (List.replicate 256 (1:ℕ)).getD i 0)).sum = 32640 := by decide
  have hden : (List.replicate 256 (1:ℕ)).sum = 256 := by decide
  have hb : contrast_brightness (List.replicate 256 1) = 127 := by
    rw [contrast_brightness, hnum, hden]
    norm_num
  refine ⟨hb, ?_⟩
  have h1 : ¬((List.replicate 256 (1:ℕ)).length ≠ 256 ∨ (2:ℚ) < 0) := by
    simp
  rw [adjust_contrast, if_neg h1, if_neg (by decide : ¬(List.replicate 256 (1:ℕ)).sum = 0)]
  congr 1
  refine List.map_congr_left ?_
  intro i hi
  have hc : (2:ℚ) * i + (1 - 2) * contrast_brightness (List.replicate 256 1) =
      (((2 * (i:ℤ) - 127 : ℤ)):ℚ) := by
    rw [hb]
    push_cast
    ring
  rw [hc, floor_clamp_intCast]

/-! ## C9: zero gamma exposure, C10: log transform endpoints -/

/-- C9: adjust_exposure(0.0) passes the non-negativity guard and returns
the constant table that maps every intensity, including 0, to 255, because
pow(x, 0) is exactly 1 for every base. -/
theorem adjust_exposure_zero_gamma :
    adjust_exposure 0 = Except.ok (List.replicate 256 255) := by
  rw [adjust_exposure, if_neg (by norm_num)]
  congr 1
  have hpt : ∀ i ∈ List.range 256,
      (Int.floor (npPow ((i:ℚ) / 255) 0 * 255)).toNat % 256 = (fun (_ : ℕ) => 255) i := by
    intro i _
    rw [show npPow ((i:ℚ) / 255) 0 = 1 from by simp [npPow],
      show ((1:ℚ) * 255) = ((255:ℤ):ℚ) from by norm_num, Int.floor_intCast]
    show Int.toNat 255 % 256 = 255
    decide
  rw [List.map_congr_left hpt, List.map_const']
  simp

/-- C10: the log transform table maps intensity 255 exactly to 255 since
trunc(106 * log10(256)) = 255, and intensity 0 exactly to 0 since
log10(1) = 0, with no explicit clamp in the code. -/
theorem log_transform_endpoints :
    log_transform.getD 255 0 = 255 ∧ log_transform.getD 0 0 = 0 := by
  have hlog : Nat.log 10 (256 ^ 106) = 255 :=
    Nat.log_eq_of_pow_le_of_lt_pow (by norm_num) (by norm_num)
  constructor
  · have h255 : (255:ℕ) < (List.range 256).length := by simp
    rw [log_transform, getD_map_lt _ _ _ h255,
      show (List.range 256).getD 255 0 = 255 from by decide,
      show (255 + 1 : ℕ) ^ 106 = 256 ^ 106 from by norm_num, hlog]
  · have h0 : (0:ℕ) < (List.range 256).length := by simp
    rw [log_transform, getD_map_lt _ _ _ h0,
      show (List.range 256).getD 0 0 = 0 from by decide]
    norm_num

/-! ## C2, C3: the equalization LUT construction -/

/-- Prefix sums of a list of non-negative rationals are monotone in the
prefix length. -/
theorem sum_take_mono (xs : List ℚ) (hx : ∀ x ∈ xs, 0 ≤ x) {m n : ℕ} (h : m ≤ n) :
    (xs.take m).sum ≤ (xs.take n).sum := by
  have hsplit : xs.take n = xs.take m ++ (xs.drop m).take (n - m) := by
    rw [← List.take_add]
    congr 1
    omega
  rw [hsplit, List.sum_append]
  have h0 : 0 ≤ ((xs.drop m).take (n - m)).sum := by
    apply List.sum_nonneg
    intro x hxm
    exact hx x (List.mem_of_mem_drop (List.mem_of_mem_take hxm))
  linarith

/-- getD on List.range below the bound. -/
theorem range_getD_lt (n i : ℕ) (h : i < n) : (List.range n).getD i 0 = i := by
  rw [List.getD_eq_getElem _ _ (by simpa using h)]
  simp

/-- The equalization table written as one map over intensities: entry i is
the clamped, truncated cumulative mass of the first i + 1 bins times 255. -/
theorem equalize_table_eq (hist : List ℕ) :
    equalize_table hist = (List.range hist.length).map (fun i =>
      (Int.floor (max 0 (min 255
        (((hist.map (fun (v : ℕ) => (v:ℚ) / (equalize_pixels hist : ℚ))).take (i + 1)).sum
          * 255)))).toNat) := by
  rw [equalize_table, cumsum, List.map_map, List.length_map]
  rfl

/-- C3: for every histogram of 256 counts with positive total, the
equalization lookup table is monotonically non-decreasing: for all indices
i < j below 256, table entry i is at most table entry j. -/
theorem equalize_table_monotone (hist : List ℕ)
    (hlen : hist.length = 256) (hpos : 0 < hist.sum)
    (i j : ℕ) (hij : i < j) (hj : j < 256) :
    (equalize_table hist).getD i 0 ≤ (equalize_table hist).getD j 0 := by
  have hi : i < 256 := lt_trans hij hj
  rw [equalize_table_eq]
  rw [getD_map_lt _ _ i (by simpa [hlen] using hi), getD_map_lt _ _ j (by simpa [hlen] using hj)]
  rw [range_getD_lt _ _ (by omega : i < hist.length), range_getD_lt _ _ (by omega : j < hist.length)]
  apply Int.toNat_le_toNat
  apply Int.floor_le_floor
  apply max_le_max le_rfl
  apply min_le_min le_rfl
  apply mul_le_mul_of_nonneg_right _ (by norm_num : (0:ℚ) ≤ 255)
  apply sum_take_mono _ _ (by omega : i + 1 ≤ j + 1)
  intro x hx
  rcases List.mem_map.mp hx with ⟨v, _, rfl⟩
  exact div_nonneg (Nat.cast_nonneg v) (Nat.cast_nonneg _)

/-- C3 witness: the constant histogram with every count 3, at indices 3
and 7. -/
theorem equalize_table_monotone_witness :
    (List.replicate 256 (3:ℕ)).length = 256 ∧ 0 < (List.replicate 256 (3:ℕ)).sum ∧
    (3:ℕ) < 7 ∧ (7:ℕ) < 256 ∧
    (equalize_table (List.replicate 256 3)).getD 3 0 ≤
      (equalize_table (List.replicate 256 3)).getD 7 0 :=
  ⟨by decide, by decide, by decide, by decide,
    equalize_table_monotone _ (by decide) (by decide) 3 7 (by decide) (by decide)⟩

/-- C2 counterexample: the all-zero histogram has exactly 256 entries and
sums to zero, yet the construction raises nothing: the division by zero
propagates through the table values instead of being reported, and an ok
table is produced. -/
theorem equalize_lut_zero_sum_not_rejected :
    (List.replicate 256 (0:ℕ)).length = 256 ∧ (List.replicate 256 (0:ℕ)).sum = 0 ∧
    (equalize_lut (List.replicate 256 0)).isOk = true := by
  refine ⟨by decide, by decide, ?_⟩
  rw [equalize_lut, if_neg (by decide)]
  rfl

/-- C2 amended: the construction performs no deliberate validation. A
histogram with fewer than 256 entries fails, but with an IndexError from
the pixel-count loop rather than an InvalidArgument check; any histogram
with at least 256 entries, a zero-sum one included, produces a table
without any error. -/
theorem equalize_lut_validation (hist : List ℕ) :
    (hist.length < 256 → equalize_lut hist = Except.error PyError.indexOutOfBounds) ∧
    (256 ≤ hist.length → (equalize_lut hist).isOk = true) := by
  constructor
  · intro h
    rw [equalize_lut, if_pos h]
  · intro h
    rw [equalize_lut, if_neg (by omega)]
    rfl

/-- C2 amended witness: a 3-entry histogram fails with IndexError; a
300-entry histogram is not rejected. -/
theorem equalize_lut_validation_witness :
    ([1, 2, 3] : List ℕ).length < 256 ∧
    equalize_lut [1, 2, 3] = Except.error PyError.indexOutOfBounds ∧
    256 ≤ (List.replicate 300 (2:ℕ)).length ∧
    (equalize_lut (List.replicate 300 2)).isOk = true :=
  ⟨by decide, (equalize_lut_validation _).1 (by decide),
    by decide, (equalize_lut_validation _).2 (by decide)⟩
